import Mathlib

/-!
Verification development for the supplier-ledger reconciliation engine of
`Date_datos.py`.  The Python engine works over three pandas DataFrames
(delivery records, deposits, debit notes); we embed the rows as structures,
the DataFrames as lists, dates as natural-number ordinals (`0` encodes the
anchor date 1900-01-01), and the float arithmetic as exact rational
arithmetic.  The deterministic stable sort `sort_values(by=["Fecha", "N"])`
is modelled by `List.insertionSort` on the lexicographic key `(fecha, n)`
(the column `N` holds zero-padded numerals, modelled by their numeric
value).  The reconciliation function `recalculate_accumulated_balances`
below follows the source line by line.
-/

namespace Raspadory

/-- Conversion constant `LBS_PER_KG = 2.20462` from the source. -/
def LBS_PER_KG : ℚ := 220462 / 100000

/-- The constant `INITIAL_ACCUMULATED_BALANCE = -243.30` from the source. -/
def INITIAL_ACCUMULATED_BALANCE : ℚ := -2433 / 10

/-- One row of the delivery-record DataFrame (columns of `COLUMNS_DATA`). -/
structure Registro where
  n : Nat
  fecha : Nat
  proveedor : String
  producto : String
  cantidad : ℚ
  pesoSalida : ℚ
  pesoEntrada : ℚ
  tipoDocumento : String
  gavetas : ℚ
  precioUnitario : ℚ
  promedio : ℚ
  kilosRestantes : ℚ
  librasRestantes : ℚ
  total : ℚ
  montoDeposito : ℚ
  saldoDiario : ℚ
  saldoAcumulado : ℚ
deriving DecidableEq, Repr

/-- One row of the deposits DataFrame (columns of `COLUMNS_DEPOSITS`). -/
structure Deposito where
  fecha : Nat
  empresa : String
  agencia : String
  monto : ℚ
  documento : String
  n : Nat
deriving DecidableEq, Repr

/-- One row of the debit-note DataFrame (columns of `COLUMNS_DEBIT_NOTES`). -/
structure NotaDebito where
  fecha : Nat
  librasCalculadas : ℚ
  descuento : ℚ
  descuentoPosible : ℚ
  descuentoReal : ℚ
deriving DecidableEq, Repr

/-- A row is the ledger anchor iff its `Proveedor` is the sentinel string
`"BALANCE_INICIAL"` (compared exactly, as the source does). -/
def isAnchor (r : Registro) : Bool := r.proveedor == "BALANCE_INICIAL"

/-- Source lines 248-253: the anchor row is forced back to its fixed values
(`Saldo Acumulado` = initial constant, zero daily net, deposit and total,
`N = "00"`, date 1900-01-01, encoded as `0`). -/
def resetAnchor (r : Registro) : Registro :=
  { r with saldoAcumulado := INITIAL_ACCUMULATED_BALANCE, saldoDiario := 0,
           montoDeposito := 0, total := 0, n := 0, fecha := 0 }

/-- Source lines 182-196: `df_deposits.groupby(["Fecha", "Empresa"])["Monto"].sum()`
looked up at one key, i.e. the summed deposit amount for a `(date, empresa)`
pair; a key with no deposits yields `0` (the `fillna(0)` after the left merge). -/
def depositosSum (deps : List Deposito) (fecha : Nat) (empresa : String) : ℚ :=
  ((deps.filter (fun d => d.fecha == fecha && d.empresa == empresa)).map
    (fun d => d.monto)).sum

/-- Source lines 210-216: `df_notes.groupby("Fecha")["Descuento real"].sum()`
looked up at one date, with absent dates contributing `0`. -/
def notasSum (notas : List NotaDebito) (fecha : Nat) : ℚ :=
  ((notas.filter (fun nt => nt.fecha == fecha)).map
    (fun nt => nt.descuentoReal)).sum

/-- Source lines 170-173, 189-196 and 203: refresh of the derived fields of a
single operations row: `Kilos Restantes`, `Libras Restantes`, `Promedio`
(0 when `Cantidad` is 0), `Total ($)`, the merged `Monto Deposito`, and the
per-row `Saldo diario = Monto Deposito - Total`. -/
def computeDerived (deps : List Deposito) (r : Registro) : Registro :=
  let kilos := r.pesoSalida - r.pesoEntrada
  let libras := kilos * LBS_PER_KG
  let prom := if r.cantidad ≠ 0 then libras / r.cantidad else 0
  let tot := libras * r.precioUnitario
  let monto := depositosSum deps r.fecha r.proveedor
  { r with kilosRestantes := kilos, librasRestantes := libras, promedio := prom,
           total := tot, montoDeposito := monto, saldoDiario := monto - tot }

/-- Source lines 206 and 275: `groupby("Fecha")["Saldo diario"].sum()` looked
up at one date (absent dates give `0`, the `.get(fecha, 0.0)` default). -/
def saldoSumOn (l : List Registro) (fecha : Nat) : ℚ :=
  ((l.filter (fun r => r.fecha == fecha)).map (fun r => r.saldoDiario)).sum

/-- Source lines 206-218: the consolidated daily balance of a date —
the sum of the per-row `Saldo diario` over the rows of that date plus the
debit-note adjustment of the date (`SaldoDiarioAjustado`). -/
def adjustedDaily (l : List Registro) (notas : List NotaDebito) (fecha : Nat) : ℚ :=
  saldoSumOn l fecha + notasSum notas fecha

/-- Source lines 163-236: the full per-row processing of the operations rows:
first each row's derived fields are refreshed (`computeDerived`), then every
row's `Saldo diario` column is overwritten with the whole date's
`SaldoDiarioAjustado` (line 235's `saldo_map` application). -/
def processOps (deps : List Deposito) (notas : List NotaDebito)
    (ops : List Registro) : List Registro :=
  let ops1 := ops.map (computeDerived deps)
  ops1.map (fun r => { r with saldoDiario := adjustedDaily ops1 notas r.fecha })

/-- Lexicographic sort key of `sort_values(by=["Fecha", "N"])` (line 264). -/
def recKeyLe (a b : Registro) : Prop :=
  a.fecha < b.fecha ∨ (a.fecha = b.fecha ∧ a.n ≤ b.n)

instance : DecidableRel recKeyLe := fun a b => by
  unfold recKeyLe; infer_instance

instance : IsTotal Registro recKeyLe :=
  ⟨by intro a b; unfold recKeyLe; omega⟩

instance : IsTrans Registro recKeyLe :=
  ⟨by intro a b c; unfold recKeyLe; omega⟩

/-- Source lines 271-292: the final iterative walk assigning
`Saldo Acumulado`.  `cur` is `current_accumulated_balance`, `prev` is
`fecha_anterior`; an anchor row receives and resets the running value to the
initial constant, any other row adds the date's consolidated daily total
(`daily`) exactly when its date differs from the previous row's date. -/
def walkAux (daily : Nat → ℚ) : List Registro → ℚ → Nat → List Registro
  | [], _, _ => []
  | r :: rs, cur, prev =>
    if isAnchor r then
      { r with saldoAcumulado := INITIAL_ACCUMULATED_BALANCE } ::
        walkAux daily rs INITIAL_ACCUMULATED_BALANCE prev
    else
      { r with saldoAcumulado := if r.fecha = prev then cur else cur + daily r.fecha } ::
        walkAux daily rs (if r.fecha = prev then cur else cur + daily r.fecha) r.fecha

/-- Source lines 142-296, `recalculate_accumulated_balances`: split off the
anchor rows and reset them, refresh the operations rows, concatenate
anchor-first, sort by `(Fecha, N)`, and run the accumulated-balance walk
seeded with the initial constant and the anchor date. -/
def recalculate_accumulated_balances (data : List Registro) (deps : List Deposito)
    (notas : List NotaDebito) : List Registro :=
  let anchors := (data.filter (fun r => isAnchor r)).map resetAnchor
  let ops := processOps deps notas (data.filter (fun r => !isAnchor r))
  let sorted := List.insertionSort recKeyLe (anchors ++ ops)
  let daily := fun d => saldoSumOn (sorted.filter (fun r => !isAnchor r)) d
  walkAux daily sorted INITIAL_ACCUMULATED_BALANCE 0

/-- Source lines 299-311, `get_next_n`: one more than the maximal numeric `N`
among the non-anchor rows (`1` when there are none). -/
def get_next_n (data : List Registro) : Nat :=
  ((data.filter (fun r => !isAnchor r)).map (fun r => r.n)).foldr max 0 + 1

/-- Source lines 383-446, `add_supplier_record`: validate the inputs, compute
the derived fields, and append the new row after the existing operations rows
(anchor rows stay in front).  `none` models the rejected mutation (the
function returning `False` after `st.error`), in which case the caller's
three collections are untouched. -/
def add_supplier_record (data : List Registro) (deps : List Deposito)
    (notas : List NotaDebito) (fecha : Nat) (proveedor : String)
    (cantidad pesoSalida pesoEntrada : ℚ) (tipoDocumento : String)
    (gavetas precioUnitario : ℚ) :
    Option (List Registro × List Deposito × List NotaDebito) :=
  if ¬ (0 ≤ cantidad ∧ 0 ≤ pesoSalida ∧ 0 ≤ pesoEntrada ∧
        0 ≤ precioUnitario ∧ 0 ≤ gavetas) then
    none
  else if cantidad = 0 ∧ pesoSalida = 0 ∧ pesoEntrada = 0 then
    none
  else if pesoEntrada > pesoSalida then
    none
  else
    let kilos := pesoSalida - pesoEntrada
    let libras := kilos * LBS_PER_KG
    let prom := if cantidad ≠ 0 then libras / cantidad else 0
    let tot := libras * precioUnitario
    let nueva : Registro :=
      { n := get_next_n data, fecha := fecha, proveedor := proveedor,
        producto := "Pollo", cantidad := cantidad, pesoSalida := pesoSalida,
        pesoEntrada := pesoEntrada, tipoDocumento := tipoDocumento,
        gavetas := gavetas, precioUnitario := precioUnitario,
        promedio := prom, kilosRestantes := kilos, librasRestantes := libras,
        total := tot, montoDeposito := 0, saldoDiario := 0, saldoAcumulado := 0 }
    let dfBalance := data.filter (fun r => isAnchor r)
    let dfTemp := data.filter (fun r => !isAnchor r)
    some (dfBalance ++ (dfTemp ++ [nueva]), deps, notas)

/-- Caller-side semantics of a creation attempt: a rejected mutation keeps
the three collections exactly as they were (the function returns before any
`st.session_state` assignment). -/
def addSupplierSession (data : List Registro) (deps : List Deposito)
    (notas : List NotaDebito) (fecha : Nat) (proveedor : String)
    (cantidad pesoSalida pesoEntrada : ℚ) (tipoDocumento : String)
    (gavetas precioUnitario : ℚ) :
    List Registro × List Deposito × List NotaDebito :=
  match add_supplier_record data deps notas fecha proveedor cantidad pesoSalida
      pesoEntrada tipoDocumento gavetas precioUnitario with
  | none => (data, deps, notas)
  | some s => s

/-- The operations rows of a record collection (every non-anchor row). -/
def nonAnchor (data : List Registro) : List Registro :=
  data.filter (fun r => !isAnchor r)

/-- The monetary total of a row as recomputed from its raw fields:
`(exit - entry) * LBS_PER_KG * unit price`. -/
def rawTotal (r : Registro) : ℚ :=
  (r.pesoSalida - r.pesoEntrada) * LBS_PER_KG * r.precioUnitario

/-- The date-level net movement as the engine consolidates it: for each
operations row of the date, the full `(date, proveedor)` deposit sum minus
that row's recomputed total, summed over the rows, plus the date's
debit-note adjustment. -/
def adjNet (data : List Registro) (deps : List Deposito)
    (notas : List NotaDebito) (d : Nat) : ℚ :=
  (((nonAnchor data).filter (fun r => r.fecha == d)).map
    (fun r => depositosSum deps d r.proveedor - rawTotal r)).sum
    + notasSum notas d

/-- Number of rows of a given date in a record collection. -/
def countOn (l : List Registro) (d : Nat) : Nat :=
  (l.filter (fun r => r.fecha == d)).length

/-- The set of dates appearing in a record collection. -/
def datesOf (l : List Registro) : Finset Nat :=
  (l.map (fun r => r.fecha)).toFinset

/-- Sum of `daily` over the dates of `s` lying in the half-open
interval `(a, b]`. -/
def rangeDaily (daily : Nat → ℚ) (s : Finset Nat) (a b : Nat) : ℚ :=
  Finset.sum (s.filter (fun d => a < d ∧ d ≤ b)) daily

/-! ### Projection lemmas for the row-transforming functions -/

@[simp] lemma isAnchor_resetAnchor (r : Registro) :
    isAnchor (resetAnchor r) = isAnchor r := rfl

@[simp] lemma resetAnchor_fecha (r : Registro) : (resetAnchor r).fecha = 0 := rfl

@[simp] lemma resetAnchor_n (r : Registro) : (resetAnchor r).n = 0 := rfl

@[simp] lemma resetAnchor_saldoAcumulado (r : Registro) :
    (resetAnchor r).saldoAcumulado = INITIAL_ACCUMULATED_BALANCE := rfl

@[simp] lemma resetAnchor_saldoDiario (r : Registro) :
    (resetAnchor r).saldoDiario = 0 := rfl

@[simp] lemma resetAnchor_montoDeposito (r : Registro) :
    (resetAnchor r).montoDeposito = 0 := rfl

@[simp] lemma resetAnchor_total (r : Registro) : (resetAnchor r).total = 0 := rfl

@[simp] lemma resetAnchor_idem (r : Registro) :
    resetAnchor (resetAnchor r) = resetAnchor r := rfl

@[simp] lemma computeDerived_fecha (deps : List Deposito) (r : Registro) :
    (computeDerived deps r).fecha = r.fecha := rfl

@[simp] lemma computeDerived_n (deps : List Deposito) (r : Registro) :
    (computeDerived deps r).n = r.n := rfl

@[simp] lemma computeDerived_proveedor (deps : List Deposito) (r : Registro) :
    (computeDerived deps r).proveedor = r.proveedor := rfl

@[simp] lemma computeDerived_cantidad (deps : List Deposito) (r : Registro) :
    (computeDerived deps r).cantidad = r.cantidad := rfl

@[simp] lemma computeDerived_pesoSalida (deps : List Deposito) (r : Registro) :
    (computeDerived deps r).pesoSalida = r.pesoSalida := rfl

@[simp] lemma computeDerived_pesoEntrada (deps : List Deposito) (r : Registro) :
    (computeDerived deps r).pesoEntrada = r.pesoEntrada := rfl

@[simp] lemma computeDerived_precioUnitario (deps : List Deposito) (r : Registro) :
    (computeDerived deps r).precioUnitario = r.precioUnitario := rfl

@[simp] lemma isAnchor_computeDerived (deps : List Deposito) (r : Registro) :
    isAnchor (computeDerived deps r) = isAnchor r := rfl

@[simp] lemma computeDerived_kilosRestantes (deps : List Deposito) (r : Registro) :
    (computeDerived deps r).kilosRestantes = r.pesoSalida - r.pesoEntrada := rfl

@[simp] lemma computeDerived_librasRestantes (deps : List Deposito) (r : Registro) :
    (computeDerived deps r).librasRestantes
      = (r.pesoSalida - r.pesoEntrada) * LBS_PER_KG := rfl

@[simp] lemma computeDerived_promedio (deps : List Deposito) (r : Registro) :
    (computeDerived deps r).promedio
      = if r.cantidad ≠ 0 then (r.pesoSalida - r.pesoEntrada) * LBS_PER_KG / r.cantidad
        else 0 := rfl

@[simp] lemma computeDerived_total (deps : List Deposito) (r : Registro) :
    (computeDerived deps r).total = rawTotal r := rfl

@[simp] lemma computeDerived_montoDeposito (deps : List Deposito) (r : Registro) :
    (computeDerived deps r).montoDeposito
      = depositosSum deps r.fecha r.proveedor := rfl

@[simp] lemma computeDerived_saldoDiario (deps : List Deposito) (r : Registro) :
    (computeDerived deps r).saldoDiario
      = depositosSum deps r.fecha r.proveedor - rawTotal r := rfl

@[simp] lemma computeDerived_saldoAcumulado (deps : List Deposito) (r : Registro) :
    (computeDerived deps r).saldoAcumulado = r.saldoAcumulado := rfl

/-! ### The processed operations rows, written as one `List.map` -/

/-- The single-row form of `processOps`: derived-field refresh followed by the
overwrite of `Saldo diario` with the whole date's consolidated value. -/
def procRow (deps : List Deposito) (notas : List NotaDebito)
    (ops1 : List Registro) (r : Registro) : Registro :=
  { computeDerived deps r with saldoDiario := adjustedDaily ops1 notas r.fecha }

lemma processOps_eq_map (deps : List Deposito) (notas : List NotaDebito)
    (ops : List Registro) :
    processOps deps notas ops
      = ops.map (procRow deps notas (ops.map (computeDerived deps))) := by
  unfold processOps procRow
  rw [List.map_map]
  rfl

@[simp] lemma procRow_fecha (deps notas ops1) (r : Registro) :
    (procRow deps notas ops1 r).fecha = r.fecha := rfl

@[simp] lemma procRow_n (deps notas ops1) (r : Registro) :
    (procRow deps notas ops1 r).n = r.n := rfl

@[simp] lemma procRow_proveedor (deps notas ops1) (r : Registro) :
    (procRow deps notas ops1 r).proveedor = r.proveedor := rfl

@[simp] lemma isAnchor_procRow (deps notas ops1) (r : Registro) :
    isAnchor (procRow deps notas ops1 r) = isAnchor r := rfl

@[simp] lemma procRow_saldoDiario (deps notas ops1) (r : Registro) :
    (procRow deps notas ops1 r).saldoDiario
      = adjustedDaily ops1 notas r.fecha := rfl

@[simp] lemma procRow_montoDeposito (deps notas ops1) (r : Registro) :
    (procRow deps notas ops1 r).montoDeposito
      = depositosSum deps r.fecha r.proveedor := rfl

/-! ### Sorting lemmas -/

lemma recKeyLe_of_zero {a : Registro} (hf : a.fecha = 0) (hn : a.n = 0)
    (b : Registro) : recKeyLe a b := by
  unfold recKeyLe; omega

/-- Rows whose sort key is the global minimum (the reset anchor rows) are kept
in front by the stable sort. -/
lemma insertionSort_min_prefix (A O : List Registro)
    (hA : ∀ a ∈ A, a.fecha = 0 ∧ a.n = 0) :
    List.insertionSort recKeyLe (A ++ O)
      = A ++ List.insertionSort recKeyLe O := by
  induction A with
  | nil => simp
  | cons a A ih =>
    have ha := hA a (by simp)
    rw [List.cons_append,
      List.insertionSort_cons recKeyLe
        (fun b _ => recKeyLe_of_zero ha.1 ha.2 b),
      ih (fun a ha' => hA a (by simp [ha']))]
    rfl

lemma toFinset_eq_of_perm {l₁ l₂ : List Nat} (h : l₁.Perm l₂) :
    l₁.toFinset = l₂.toFinset := by
  ext a; simp [List.mem_toFinset, h.mem_iff]

/-! ### Interval-sum lemmas for the balance walk -/

lemma rangeDaily_self (daily : Nat → ℚ) (s : Finset Nat) (a : Nat) :
    rangeDaily daily s a a = 0 := by
  unfold rangeDaily
  rw [Finset.filter_false_of_mem, Finset.sum_empty]
  intro x _ hx
  omega

lemma rangeDaily_insert_prev (daily : Nat → ℚ) (s : Finset Nat) (prev b : Nat) :
    rangeDaily daily (insert prev s) prev b = rangeDaily daily s prev b := by
  unfold rangeDaily
  rw [Finset.filter_insert, if_neg]
  omega

lemma rangeDaily_insert_head (daily : Nat → ℚ) {s : Finset Nat} {f1 prev : Nat}
    (h : ∀ d ∈ s, f1 ≤ d) (hp : prev < f1) :
    rangeDaily daily (insert f1 s) prev f1 = daily f1 := by
  unfold rangeDaily
  have : Finset.filter (fun d => prev < d ∧ d ≤ f1) (insert f1 s) = {f1} := by
    ext d
    simp only [Finset.mem_filter, Finset.mem_insert, Finset.mem_singleton]
    constructor
    · rintro ⟨hd | hd, h1, h2⟩
      · exact hd
      · have := h d hd; omega
    · rintro rfl
      exact ⟨Or.inl rfl, hp, le_refl _⟩
  rw [this, Finset.sum_singleton]

lemma rangeDaily_insert_split (daily : Nat → ℚ) {s : Finset Nat}
    {f1 prev b : Nat} (h : ∀ d ∈ s, f1 ≤ d) (hp : prev < f1) (hb : f1 ≤ b) :
    rangeDaily daily (insert f1 s) prev b
      = daily f1 + rangeDaily daily s f1 b := by
  unfold rangeDaily
  have hset : Finset.filter (fun d => prev < d ∧ d ≤ b) (insert f1 s)
      = insert f1 (Finset.filter (fun d => f1 < d ∧ d ≤ b) s) := by
    ext d
    simp only [Finset.mem_filter, Finset.mem_insert]
    constructor
    · rintro ⟨hd | hd, h1, h2⟩
      · exact Or.inl hd
      · have := h d hd
        rcases Nat.eq_or_lt_of_le this with h3 | h3
        · exact Or.inl h3.symm
        · exact Or.inr ⟨hd, h3, h2⟩
    · rintro (rfl | ⟨hd, h1, h2⟩)
      · exact ⟨Or.inl rfl, hp, hb⟩
      · exact ⟨Or.inr hd, by omega, h2⟩
  rw [hset, Finset.sum_insert]
  simp only [Finset.mem_filter]
  omega

@[simp] lemma datesOf_cons (r : Registro) (l : List Registro) :
    datesOf (r :: l) = insert r.fecha (datesOf l) := by
  simp [datesOf]

lemma datesOf_lb {rs : List Registro} {c : Nat}
    (h : ∀ s ∈ rs, c ≤ s.fecha) : ∀ d ∈ datesOf rs, c ≤ d := by
  intro d hd
  simp only [datesOf, List.mem_toFinset, List.mem_map] at hd
  obtain ⟨s, hs, rfl⟩ := hd
  exact h s hs

/-! ### Characterisation of the accumulated-balance walk -/

/-- The walk over the reset anchor rows: each receives the initial constant
and passes the initial constant on as the running balance. -/
lemma walkAux_anchors (daily : Nat → ℚ) (A O : List Registro) (prev : Nat)
    (hA : ∀ a ∈ A, isAnchor a = true) :
    walkAux daily (A ++ O) INITIAL_ACCUMULATED_BALANCE prev
      = A.map (fun a => { a with saldoAcumulado := INITIAL_ACCUMULATED_BALANCE })
        ++ walkAux daily O INITIAL_ACCUMULATED_BALANCE prev := by
  induction A with
  | nil => simp
  | cons a A ih =>
    have ha := hA a (by simp)
    rw [List.cons_append, walkAux, if_pos ha, List.map_cons, List.cons_append,
      ih (fun x hx => hA x (by simp [hx]))]

/-- On a sorted anchor-free list whose dates all lie at or after `prev`, the
walk assigns to every row the incoming balance plus the summed daily totals
of the distinct dates in the interval `(prev, row date]`. -/
lemma walk_char (daily : Nat → ℚ) :
    ∀ (l : List Registro) (cur : ℚ) (prev : Nat),
      (∀ r ∈ l, isAnchor r = false) →
      l.Pairwise (fun a b => a.fecha ≤ b.fecha) →
      (∀ r ∈ l, prev ≤ r.fecha) →
      walkAux daily l cur prev =
        l.map (fun r =>
          { r with saldoAcumulado := cur + rangeDaily daily (datesOf l) prev r.fecha }) := by
  intro l
  induction l with
  | nil => intro cur prev _ _ _; rfl
  | cons r rs ih =>
    intro cur prev hanch hsort hprev
    have ha : isAnchor r = false := hanch r (by simp)
    have htail : ∀ s ∈ rs, r.fecha ≤ s.fecha := fun s hs =>
      List.rel_of_pairwise_cons hsort hs
    have hdatestail : ∀ d ∈ datesOf rs, r.fecha ≤ d := datesOf_lb htail
    rw [walkAux, if_neg (by simp [ha])]
    by_cases hf : r.fecha = prev
    · rw [if_pos hf,
        ih cur r.fecha (fun s hs => hanch s (by simp [hs])) hsort.of_cons htail,
        List.map_cons]
      congr 1
      · have hz : rangeDaily daily (datesOf (r :: rs)) prev r.fecha = 0 := by
          rw [datesOf_cons, hf, rangeDaily_insert_prev, rangeDaily_self]
        rw [hz, add_zero]
      · apply List.map_congr_left
        intro s hs
        have hv : rangeDaily daily (datesOf (r :: rs)) prev s.fecha
            = rangeDaily daily (datesOf rs) r.fecha s.fecha := by
          rw [datesOf_cons, hf, rangeDaily_insert_prev]
        rw [hv]
    · have hlt : prev < r.fecha := by
        have := hprev r (by simp); omega
      rw [if_neg hf,
        ih (cur + daily r.fecha) r.fecha (fun s hs => hanch s (by simp [hs]))
          hsort.of_cons htail,
        List.map_cons]
      congr 1
      · have hz : rangeDaily daily (datesOf (r :: rs)) prev r.fecha
            = daily r.fecha := by
          rw [datesOf_cons]
          exact rangeDaily_insert_head daily hdatestail hlt
        rw [hz]
      · apply List.map_congr_left
        intro s hs
        have hv : rangeDaily daily (datesOf (r :: rs)) prev s.fecha
            = daily r.fecha + rangeDaily daily (datesOf rs) r.fecha s.fecha := by
          rw [datesOf_cons]
          exact rangeDaily_insert_split daily hdatestail hlt (htail s hs)
        rw [hv, add_assoc]

/-! ### Closed form of the reconciliation -/

/-- The reset anchor rows of the input, in input order. -/
def anchorsOf (data : List Registro) : List Registro :=
  (data.filter (fun r => isAnchor r)).map resetAnchor

/-- The processed operations rows, before sorting. -/
def opsOf (data : List Registro) (deps : List Deposito)
    (notas : List NotaDebito) : List Registro :=
  processOps deps notas (data.filter (fun r => !isAnchor r))

/-- The processed operations rows in `(Fecha, N)` order. -/
def sortedOps (data : List Registro) (deps : List Deposito)
    (notas : List NotaDebito) : List Registro :=
  List.insertionSort recKeyLe (opsOf data deps notas)

/-- The per-date totals `daily_saldos` the final walk consumes. -/
def dailyOf (data : List Registro) (deps : List Deposito)
    (notas : List NotaDebito) : Nat → ℚ :=
  fun d => saldoSumOn (sortedOps data deps notas) d

/-- The accumulated balance assigned to every operations row of date `f`. -/
def balOf (data : List Registro) (deps : List Deposito)
    (notas : List NotaDebito) (f : Nat) : ℚ :=
  INITIAL_ACCUMULATED_BALANCE
    + rangeDaily (dailyOf data deps notas) (datesOf (sortedOps data deps notas)) 0 f

lemma anchorsOf_key (data : List Registro) :
    ∀ a ∈ anchorsOf data, a.fecha = 0 ∧ a.n = 0 := by
  intro a ha
  obtain ⟨b, _, rfl⟩ := List.mem_map.mp ha
  simp

lemma anchorsOf_isAnchor (data : List Registro) :
    ∀ a ∈ anchorsOf data, isAnchor a = true := by
  intro a ha
  obtain ⟨b, hb, rfl⟩ := List.mem_map.mp ha
  simpa using (List.mem_filter.mp hb).2

lemma anchorsOf_saldoAcumulado (data : List Registro) :
    ∀ a ∈ anchorsOf data, a.saldoAcumulado = INITIAL_ACCUMULATED_BALANCE := by
  intro a ha
  obtain ⟨b, _, rfl⟩ := List.mem_map.mp ha
  simp

lemma mem_opsOf {data : List Registro} {deps : List Deposito}
    {notas : List NotaDebito} {r : Registro}
    (h : r ∈ opsOf data deps notas) :
    ∃ b ∈ data.filter (fun x => !isAnchor x),
      r = procRow deps notas
        ((data.filter (fun x => !isAnchor x)).map (computeDerived deps)) b := by
  rw [opsOf, processOps_eq_map] at h
  obtain ⟨b, hb, rfl⟩ := List.mem_map.mp h
  exact ⟨b, hb, rfl⟩

lemma opsOf_isAnchor (data : List Registro) (deps : List Deposito)
    (notas : List NotaDebito) :
    ∀ r ∈ opsOf data deps notas, isAnchor r = false := by
  intro r h
  obtain ⟨b, hb, rfl⟩ := mem_opsOf h
  have := (List.mem_filter.mp hb).2
  simp only [isAnchor_procRow]
  revert this
  cases isAnchor b <;> simp

lemma mem_sortedOps {data : List Registro} {deps : List Deposito}
    {notas : List NotaDebito} {r : Registro}
    (h : r ∈ sortedOps data deps notas) :
    ∃ b ∈ data.filter (fun x => !isAnchor x),
      r = procRow deps notas
        ((data.filter (fun x => !isAnchor x)).map (computeDerived deps)) b :=
  mem_opsOf ((List.mem_insertionSort recKeyLe).mp h)

lemma sortedOps_isAnchor (data : List Registro) (deps : List Deposito)
    (notas : List NotaDebito) :
    ∀ r ∈ sortedOps data deps notas, isAnchor r = false := fun r h =>
  opsOf_isAnchor data deps notas r ((List.mem_insertionSort recKeyLe).mp h)

lemma sortedOps_pairwise (data : List Registro) (deps : List Deposito)
    (notas : List NotaDebito) :
    (sortedOps data deps notas).Pairwise (fun a b => a.fecha ≤ b.fecha) :=
  (List.sorted_insertionSort recKeyLe _).imp
    (fun hab => by unfold recKeyLe at hab; omega)

lemma filter_anchors_sorted (data : List Registro) (deps : List Deposito)
    (notas : List NotaDebito) :
    (anchorsOf data ++ sortedOps data deps notas).filter (fun r => !isAnchor r)
      = sortedOps data deps notas := by
  rw [List.filter_append]
  rw [List.filter_eq_nil_iff.mpr, List.filter_eq_self.mpr, List.nil_append]
  · intro a ha
    simp [sortedOps_isAnchor data deps notas a ha]
  · intro a ha
    simp [anchorsOf_isAnchor data a ha]

/-- Closed form of `recalculate_accumulated_balances`: the reset anchor rows
in front, followed by the processed operations rows in `(Fecha, N)` order,
each carrying the balance `balOf` of its date. -/
lemma recalculate_closed (data : List Registro) (deps : List Deposito)
    (notas : List NotaDebito) :
    recalculate_accumulated_balances data deps notas
      = anchorsOf data ++ (sortedOps data deps notas).map
          (fun r => { r with saldoAcumulado := balOf data deps notas r.fecha }) := by
  have hrfl : recalculate_accumulated_balances data deps notas
      = walkAux
          (fun d => saldoSumOn
            ((List.insertionSort recKeyLe
              (anchorsOf data ++ opsOf data deps notas)).filter
                (fun r => !isAnchor r)) d)
          (List.insertionSort recKeyLe (anchorsOf data ++ opsOf data deps notas))
          INITIAL_ACCUMULATED_BALANCE 0 := rfl
  rw [hrfl, insertionSort_min_prefix _ _ (anchorsOf_key data)]
  rw [show List.insertionSort recKeyLe (opsOf data deps notas)
      = sortedOps data deps notas from rfl]
  rw [filter_anchors_sorted data deps notas]
  rw [walkAux_anchors _ _ _ _ (anchorsOf_isAnchor data)]
  rw [walk_char _ _ _ _ (sortedOps_isAnchor data deps notas)
    (sortedOps_pairwise data deps notas) (fun r _ => Nat.zero_le _)]
  congr 1
  have : ∀ a ∈ anchorsOf data,
      ({ a with saldoAcumulado := INITIAL_ACCUMULATED_BALANCE } : Registro)
        = id a := by
    intro a ha
    rw [← anchorsOf_saldoAcumulado data a ha]
    rfl
  rw [List.map_congr_left this, List.map_id]

/-! ### Aggregation transfer lemmas -/

lemma sum_map_constQ {α : Type} (l : List α) (c : ℚ) :
    (l.map (fun _ => c)).sum = l.length * c := by
  induction l with
  | nil => simp
  | cons a l ih => simp [ih]; ring

lemma saldoSumOn_perm {l₁ l₂ : List Registro} (h : l₁.Perm l₂) (d : Nat) :
    saldoSumOn l₁ d = saldoSumOn l₂ d :=
  ((h.filter _).map _).sum_eq

/-- The per-row `Saldo diario` of the refreshed rows, summed over one date,
is the deposits-minus-totals sum of that date's rows. -/
lemma saldoSumOn_map_cd (deps : List Deposito) (ops : List Registro) (d : Nat) :
    saldoSumOn (ops.map (computeDerived deps)) d
      = ((ops.filter (fun r => r.fecha == d)).map
          (fun r => depositosSum deps d r.proveedor - rawTotal r)).sum := by
  unfold saldoSumOn
  rw [List.filter_map]
  have hp : ((fun r : Registro => r.fecha == d) ∘ computeDerived deps)
      = fun r => r.fecha == d := by
    funext r; rfl
  rw [hp, List.map_map]
  apply congrArg
  apply List.map_congr_left
  intro r hr
  have hd : r.fecha = d := by simpa using (List.mem_filter.mp hr).2
  simp [Function.comp, hd]

/-- `SaldoDiarioAjustado` of a date, computed over the refreshed rows, equals
`adjNet` of that date. -/
lemma adjustedDaily_eq_adjNet (data : List Registro) (deps : List Deposito)
    (notas : List NotaDebito) (d : Nat) :
    adjustedDaily ((data.filter (fun r => !isAnchor r)).map (computeDerived deps))
        notas d
      = adjNet data deps notas d := by
  unfold adjustedDaily adjNet nonAnchor
  rw [saldoSumOn_map_cd]

/-- The `daily_saldos` value the final walk adds for a date: the number of
operations rows of that date times the date's consolidated net. -/
lemma dailyOf_eq (data : List Registro) (deps : List Deposito)
    (notas : List NotaDebito) (d : Nat) :
    dailyOf data deps notas d
      = (countOn (nonAnchor data) d : ℚ) * adjNet data deps notas d := by
  unfold dailyOf sortedOps
  rw [saldoSumOn_perm (List.perm_insertionSort recKeyLe _) d]
  unfold opsOf
  rw [processOps_eq_map]
  unfold saldoSumOn
  rw [List.filter_map]
  have hp : ((fun r : Registro => r.fecha == d)
        ∘ procRow deps notas ((data.filter (fun r => !isAnchor r)).map
            (computeDerived deps)))
      = fun r => r.fecha == d := by
    funext r; rfl
  rw [hp, List.map_map]
  have hval : ∀ r ∈ (data.filter (fun x => !isAnchor x)).filter
      (fun r => r.fecha == d),
      ((fun r : Registro => r.saldoDiario)
          ∘ procRow deps notas ((data.filter (fun x => !isAnchor x)).map
              (computeDerived deps))) r
        = adjNet data deps notas d := by
    intro r hr
    have hd : r.fecha = d := by simpa using (List.mem_filter.mp hr).2
    simp only [Function.comp, procRow_saldoDiario, hd]
    exact adjustedDaily_eq_adjNet data deps notas d
  rw [List.map_congr_left hval, sum_map_constQ]
  rfl

/-- The dates occurring among the sorted processed rows are exactly the dates
of the input operations rows. -/
lemma datesOf_sortedOps (data : List Registro) (deps : List Deposito)
    (notas : List NotaDebito) :
    datesOf (sortedOps data deps notas) = datesOf (nonAnchor data) := by
  unfold datesOf sortedOps
  rw [toFinset_eq_of_perm ((List.perm_insertionSort recKeyLe _).map _)]
  unfold opsOf
  rw [processOps_eq_map, List.map_map]
  rfl

/-- Every sorted processed row carries the whole date's consolidated net in
its `Saldo diario` field and the full matched deposit sum in
`Monto Deposito`. -/
lemma sortedOps_fields {data : List Registro} {deps : List Deposito}
    {notas : List NotaDebito} {r : Registro}
    (h : r ∈ sortedOps data deps notas) :
    r.saldoDiario = adjNet data deps notas r.fecha ∧
    r.montoDeposito = depositosSum deps r.fecha r.proveedor := by
  obtain ⟨b, _, rfl⟩ := mem_sortedOps h
  refine ⟨?_, rfl⟩
  simp only [procRow_saldoDiario, procRow_fecha]
  exact adjustedDaily_eq_adjNet data deps notas _

/-- Every sorted processed row satisfies the derived-field equations of the
source, stated over its own fields. -/
lemma sortedOps_derived {data : List Registro} {deps : List Deposito}
    {notas : List NotaDebito} {r : Registro}
    (h : r ∈ sortedOps data deps notas) :
    r.kilosRestantes = r.pesoSalida - r.pesoEntrada ∧
    r.librasRestantes = r.kilosRestantes * LBS_PER_KG ∧
    r.promedio = (if r.cantidad ≠ 0 then r.librasRestantes / r.cantidad else 0) ∧
    r.total = r.librasRestantes * r.precioUnitario := by
  obtain ⟨b, _, rfl⟩ := mem_sortedOps h
  refine ⟨rfl, rfl, rfl, rfl⟩

/-! ### Membership in the reconciled output -/

lemma mem_recalculate {data : List Registro} {deps : List Deposito}
    {notas : List NotaDebito} {r : Registro}
    (h : r ∈ recalculate_accumulated_balances data deps notas) :
    r ∈ anchorsOf data ∨
      ∃ s ∈ sortedOps data deps notas,
        r = { s with saldoAcumulado := balOf data deps notas s.fecha } := by
  rw [recalculate_closed] at h
  rcases List.mem_append.mp h with h | h
  · exact Or.inl h
  · obtain ⟨s, hs, rfl⟩ := List.mem_map.mp h
    exact Or.inr ⟨s, hs, rfl⟩

lemma mem_recalculate_nonanchor {data : List Registro} {deps : List Deposito}
    {notas : List NotaDebito} {r : Registro}
    (h : r ∈ recalculate_accumulated_balances data deps notas)
    (ha : isAnchor r = false) :
    ∃ s ∈ sortedOps data deps notas,
      r = { s with saldoAcumulado := balOf data deps notas s.fecha } := by
  rcases mem_recalculate h with h | h
  · rw [anchorsOf_isAnchor data r h] at ha
    cases ha
  · exact h

/-- A non-anchor output row's accumulated balance is determined by its date. -/
lemma recalculate_bal {data : List Registro} {deps : List Deposito}
    {notas : List NotaDebito} {r : Registro}
    (h : r ∈ recalculate_accumulated_balances data deps notas)
    (ha : isAnchor r = false) :
    r.saldoAcumulado = balOf data deps notas r.fecha := by
  obtain ⟨s, _, rfl⟩ := mem_recalculate_nonanchor h ha
  rfl

/-! ### Claim theorems: invariants of the reconciled output -/

/-- C5: after every reconciliation, all non-anchor delivery rows sharing a
date carry the identical accumulated balance (the end-of-day balance of that
date), never per-row partial sums. -/
theorem same_day_equality (data : List Registro) (deps : List Deposito)
    (notas : List NotaDebito) (r1 r2 : Registro)
    (h1 : r1 ∈ recalculate_accumulated_balances data deps notas)
    (h2 : r2 ∈ recalculate_accumulated_balances data deps notas)
    (ha1 : isAnchor r1 = false) (ha2 : isAnchor r2 = false)
    (hf : r1.fecha = r2.fecha) :
    r1.saldoAcumulado = r2.saldoAcumulado := by
  rw [recalculate_bal h1 ha1, recalculate_bal h2 ha2, hf]

/-- C6: after every reconciliation, every anchor row carries exactly the
initial balance constant, and its daily net, deposit amount and total are
zero, so it contributes nothing to any aggregate. -/
theorem anchor_invariance (data : List Registro) (deps : List Deposito)
    (notas : List NotaDebito) (r : Registro)
    (h : r ∈ recalculate_accumulated_balances data deps notas)
    (ha : isAnchor r = true) :
    r.saldoAcumulado = INITIAL_ACCUMULATED_BALANCE ∧ r.saldoDiario = 0 ∧
    r.montoDeposito = 0 ∧ r.total = 0 := by
  rcases mem_recalculate h with h | ⟨s, hs, rfl⟩
  · obtain ⟨b, _, rfl⟩ := List.mem_map.mp h
    exact ⟨rfl, rfl, rfl, rfl⟩
  · have hfalse := sortedOps_isAnchor data deps notas s hs
    rw [show isAnchor { s with saldoAcumulado := balOf data deps notas s.fecha }
        = isAnchor s from rfl, hfalse] at ha
    cases ha

/-- C7: after every reconciliation, every non-anchor delivery row's derived
fields satisfy: weight delta = exit - entry, converted quantity =
delta × 2.20462, average = converted / quantity with average 0 when the
quantity is 0 (no division error), and total = converted × unit price. -/
theorem derived_fields (data : List Registro) (deps : List Deposito)
    (notas : List NotaDebito) (r : Registro)
    (h : r ∈ recalculate_accumulated_balances data deps notas)
    (ha : isAnchor r = false) :
    r.kilosRestantes = r.pesoSalida - r.pesoEntrada ∧
    r.librasRestantes = r.kilosRestantes * LBS_PER_KG ∧
    r.promedio = (if r.cantidad ≠ 0 then r.librasRestantes / r.cantidad else 0) ∧
    (r.cantidad = 0 → r.promedio = 0) ∧
    r.total = r.librasRestantes * r.precioUnitario := by
  obtain ⟨s, hs, rfl⟩ := mem_recalculate_nonanchor h ha
  obtain ⟨e1, e2, e3, e4⟩ := sortedOps_derived hs
  refine ⟨e1, e2, e3, ?_, e4⟩
  intro hc
  rw [show ({ s with saldoAcumulado := balOf data deps notas s.fecha }
      : Registro).promedio = s.promedio from rfl] at e3 ⊢
  rw [e3, if_neg]
  simp only [ne_eq, not_not]
  exact hc

/-- C9 (implicit): after reconciliation every non-anchor row's `Saldo diario`
holds the entire date's consolidated net movement, and the accumulated
balance of a row is the initial constant plus, over each earlier-or-equal
activity date, the number of that date's rows times the date's net — i.e.
each date advances the balance once per row, not once. -/
theorem saldo_diario_whole_date (data : List Registro) (deps : List Deposito)
    (notas : List NotaDebito) (r : Registro)
    (h : r ∈ recalculate_accumulated_balances data deps notas)
    (ha : isAnchor r = false) :
    r.saldoDiario = adjNet data deps notas r.fecha ∧
    r.saldoAcumulado = INITIAL_ACCUMULATED_BALANCE +
      Finset.sum ((datesOf (nonAnchor data)).filter (fun d => 0 < d ∧ d ≤ r.fecha))
        (fun d => (countOn (nonAnchor data) d : ℚ) * adjNet data deps notas d) := by
  constructor
  · obtain ⟨s, hs, rfl⟩ := mem_recalculate_nonanchor h ha
    rw [show ({ s with saldoAcumulado := balOf data deps notas s.fecha }
        : Registro).saldoDiario = s.saldoDiario from rfl]
    rw [show ({ s with saldoAcumulado := balOf data deps notas s.fecha }
        : Registro).fecha = s.fecha from rfl]
    exact (sortedOps_fields hs).1
  · rw [recalculate_bal h ha]
    unfold balOf rangeDaily
    rw [datesOf_sortedOps]
    congr 1
    exact Finset.sum_congr rfl (fun d _ => dailyOf_eq data deps notas d)

/-- C10 (implicit): the summed deposit amount of a `(date, counterparty)`
pair is attached in full to every delivery row matching that date and
counterparty (exact, case-sensitive string equality), and the date's
consolidated net consequently contains one such full deposit sum per
matching row. -/
theorem deposit_attached_per_row (data : List Registro) (deps : List Deposito)
    (notas : List NotaDebito) (r : Registro)
    (h : r ∈ recalculate_accumulated_balances data deps notas)
    (ha : isAnchor r = false) :
    r.montoDeposito = depositosSum deps r.fecha r.proveedor ∧
    r.saldoDiario = (((nonAnchor data).filter (fun s => s.fecha == r.fecha)).map
        (fun s => depositosSum deps r.fecha s.proveedor - rawTotal s)).sum
      + notasSum notas r.fecha := by
  obtain ⟨s, hs, rfl⟩ := mem_recalculate_nonanchor h ha
  obtain ⟨e1, e2⟩ := sortedOps_fields hs
  exact ⟨e2, e1⟩

/-! ### Idempotence machinery -/

@[simp] lemma isAnchor_setSaldoAcumulado (r : Registro) (v : ℚ) :
    isAnchor { r with saldoAcumulado := v } = isAnchor r := rfl

@[simp] lemma setSaldoAcumulado_fecha (r : Registro) (v : ℚ) :
    ({ r with saldoAcumulado := v } : Registro).fecha = r.fecha := rfl

@[simp] lemma setSaldoAcumulado_saldoDiario (r : Registro) (v : ℚ) :
    ({ r with saldoAcumulado := v } : Registro).saldoDiario = r.saldoDiario := rfl

lemma saldoSumOn_map_pres (f : Registro → Registro)
    (hfe : ∀ r, (f r).fecha = r.fecha)
    (hsd : ∀ r, (f r).saldoDiario = r.saldoDiario)
    (l : List Registro) (d : Nat) :
    saldoSumOn (l.map f) d = saldoSumOn l d := by
  unfold saldoSumOn
  rw [List.filter_map]
  have hp : ((fun r : Registro => r.fecha == d) ∘ f)
      = fun r => r.fecha == d := by
    funext r; simp [Function.comp, hfe r]
  rw [hp, List.map_map]
  apply congrArg
  apply List.map_congr_left
  intro r _
  simp [Function.comp, hsd r]

lemma rawSum_map_pres (deps : List Deposito) (f : Registro → Registro)
    (hfe : ∀ r, (f r).fecha = r.fecha)
    (hpr : ∀ r, (f r).proveedor = r.proveedor)
    (hps : ∀ r, (f r).pesoSalida = r.pesoSalida)
    (hpe : ∀ r, (f r).pesoEntrada = r.pesoEntrada)
    (hpu : ∀ r, (f r).precioUnitario = r.precioUnitario)
    (l : List Registro) (d : Nat) :
    (((l.map f).filter (fun s => s.fecha == d)).map
      (fun s => depositosSum deps d s.proveedor - rawTotal s)).sum
      = ((l.filter (fun s => s.fecha == d)).map
          (fun s => depositosSum deps d s.proveedor - rawTotal s)).sum := by
  rw [List.filter_map]
  have hp : ((fun r : Registro => r.fecha == d) ∘ f)
      = fun r => r.fecha == d := by
    funext r; simp [Function.comp, hfe r]
  rw [hp, List.map_map]
  apply congrArg
  apply List.map_congr_left
  intro r _
  simp [Function.comp, rawTotal, hpr r, hps r, hpe r, hpu r]

lemma rawSum_perm (deps : List Deposito) {l₁ l₂ : List Registro}
    (h : l₁.Perm l₂) (d : Nat) :
    ((l₁.filter (fun s => s.fecha == d)).map
      (fun s => depositosSum deps d s.proveedor - rawTotal s)).sum
      = ((l₂.filter (fun s => s.fecha == d)).map
          (fun s => depositosSum deps d s.proveedor - rawTotal s)).sum :=
  ((h.filter _).map _).sum_eq

/-- Consolidating the refreshed reconciled output rows gives back the same
per-date net as consolidating the refreshed input rows. -/
lemma adjustedDaily_out (data : List Registro) (deps : List Deposito)
    (notas : List NotaDebito) (d : Nat) :
    adjustedDaily
        ((((sortedOps data deps notas).map
            (fun r => { r with saldoAcumulado := balOf data deps notas r.fecha })).map
          (computeDerived deps))) notas d
      = adjNet data deps notas d := by
  unfold adjustedDaily
  rw [saldoSumOn_map_cd]
  rw [rawSum_map_pres deps
    (fun r => { r with saldoAcumulado := balOf data deps notas r.fecha })
    (fun r => rfl) (fun r => rfl) (fun r => rfl) (fun r => rfl) (fun r => rfl)]
  rw [rawSum_perm deps
    (show (sortedOps data deps notas).Perm (opsOf data deps notas)
      from List.perm_insertionSort recKeyLe _) d]
  rw [show opsOf data deps notas
      = (data.filter (fun x => !isAnchor x)).map
          (procRow deps notas
            ((data.filter (fun x => !isAnchor x)).map (computeDerived deps)))
    from processOps_eq_map deps notas _]
  rw [rawSum_map_pres deps
    (procRow deps notas
      ((data.filter (fun x => !isAnchor x)).map (computeDerived deps)))
    (fun r => rfl) (fun r => rfl) (fun r => rfl) (fun r => rfl) (fun r => rfl)]
  rfl

/-- A row already carrying the refreshed derived fields, the matched deposit
sum and the consolidated daily net is a fixed point of the per-row
processing. -/
lemma procRow_fixpoint {deps : List Deposito} {notas : List NotaDebito}
    {L : List Registro} {x : Registro}
    (h1 : x.kilosRestantes = x.pesoSalida - x.pesoEntrada)
    (h2 : x.librasRestantes = x.kilosRestantes * LBS_PER_KG)
    (h3 : x.promedio = (if x.cantidad ≠ 0 then x.librasRestantes / x.cantidad else 0))
    (h4 : x.total = x.librasRestantes * x.precioUnitario)
    (h5 : x.montoDeposito = depositosSum deps x.fecha x.proveedor)
    (h6 : x.saldoDiario = adjustedDaily L notas x.fecha) :
    procRow deps notas L x = x := by
  cases x with
  | mk n fecha proveedor producto cantidad pesoSalida pesoEntrada tipoDocumento
      gavetas precioUnitario promedio kilosRestantes librasRestantes total
      montoDeposito saldoDiario saldoAcumulado =>
    simp only at h1 h2 h3 h4 h5 h6
    simp [procRow, computeDerived, rawTotal, h1, h2, h3, h4, h5, h6]

/-- Every row of the reconciled output's operations part is a fixed point of
the per-row processing taken over that same output. -/
lemma out_row_fixpoint (data : List Registro) (deps : List Deposito)
    (notas : List NotaDebito) :
    ∀ x ∈ (sortedOps data deps notas).map
        (fun r => { r with saldoAcumulado := balOf data deps notas r.fecha }),
      procRow deps notas
        (((sortedOps data deps notas).map
            (fun r => { r with saldoAcumulado := balOf data deps notas r.fecha })).map
          (computeDerived deps)) x = x := by
  intro x hx
  obtain ⟨s, hs, rfl⟩ := List.mem_map.mp hx
  obtain ⟨e1, e2, e3, e4⟩ := sortedOps_derived hs
  obtain ⟨f1, f2⟩ := sortedOps_fields hs
  apply procRow_fixpoint
  · exact e1
  · exact e2
  · exact e3
  · exact e4
  · exact f2
  · show s.saldoDiario = _
    rw [f1, setSaldoAcumulado_fecha, adjustedDaily_out]

lemma filter_anchor_recalculate (data : List Registro) (deps : List Deposito)
    (notas : List NotaDebito) :
    (recalculate_accumulated_balances data deps notas).filter
        (fun r => isAnchor r)
      = anchorsOf data := by
  rw [recalculate_closed, List.filter_append,
    List.filter_eq_self.mpr (anchorsOf_isAnchor data),
    List.filter_eq_nil_iff.mpr, List.append_nil]
  intro a ha
  obtain ⟨s, hs, rfl⟩ := List.mem_map.mp ha
  simp [sortedOps_isAnchor data deps notas s hs]

lemma filter_nonanchor_recalculate (data : List Registro) (deps : List Deposito)
    (notas : List NotaDebito) :
    (recalculate_accumulated_balances data deps notas).filter
        (fun r => !isAnchor r)
      = (sortedOps data deps notas).map
          (fun r => { r with saldoAcumulado := balOf data deps notas r.fecha }) := by
  rw [recalculate_closed, List.filter_append,
    List.filter_eq_nil_iff.mpr, List.nil_append, List.filter_eq_self.mpr]
  · intro a ha
    obtain ⟨s, hs, rfl⟩ := List.mem_map.mp ha
    simp [sortedOps_isAnchor data deps notas s hs]
  · intro a ha
    simp [anchorsOf_isAnchor data a ha]

lemma anchorsOf_recalculate (data : List Registro) (deps : List Deposito)
    (notas : List NotaDebito) :
    anchorsOf (recalculate_accumulated_balances data deps notas)
      = anchorsOf data := by
  unfold anchorsOf
  rw [show (recalculate_accumulated_balances data deps notas).filter
        (fun r => isAnchor r) = anchorsOf data
      from filter_anchor_recalculate data deps notas]
  unfold anchorsOf
  rw [List.map_map]
  exact List.map_congr_left (fun b _ => resetAnchor_idem b)

lemma opsOf_recalculate (data : List Registro) (deps : List Deposito)
    (notas : List NotaDebito) :
    opsOf (recalculate_accumulated_balances data deps notas) deps notas
      = (sortedOps data deps notas).map
          (fun r => { r with saldoAcumulado := balOf data deps notas r.fecha }) := by
  unfold opsOf
  rw [filter_nonanchor_recalculate data deps notas, processOps_eq_map]
  calc ((sortedOps data deps notas).map
          (fun r => { r with saldoAcumulado := balOf data deps notas r.fecha })).map
        (procRow deps notas _)
      = ((sortedOps data deps notas).map
          (fun r => { r with saldoAcumulado := balOf data deps notas r.fecha })).map
        (fun x => x) :=
        List.map_congr_left (fun x hx => out_row_fixpoint data deps notas x hx)
    _ = _ := by rw [List.map_id']

lemma sortedOps_recalculate (data : List Registro) (deps : List Deposito)
    (notas : List NotaDebito) :
    sortedOps (recalculate_accumulated_balances data deps notas) deps notas
      = (sortedOps data deps notas).map
          (fun r => { r with saldoAcumulado := balOf data deps notas r.fecha }) := by
  unfold sortedOps
  rw [show opsOf (recalculate_accumulated_balances data deps notas) deps notas
      = (sortedOps data deps notas).map
          (fun r => { r with saldoAcumulado := balOf data deps notas r.fecha })
    from opsOf_recalculate data deps notas]
  apply List.Sorted.insertionSort_eq
  exact List.pairwise_map.mpr
    ((List.sorted_insertionSort recKeyLe (opsOf data deps notas)).imp
      (fun h => h))

lemma dailyOf_recalculate (data : List Registro) (deps : List Deposito)
    (notas : List NotaDebito) (d : Nat) :
    dailyOf (recalculate_accumulated_balances data deps notas) deps notas d
      = dailyOf data deps notas d := by
  unfold dailyOf
  rw [sortedOps_recalculate data deps notas,
    saldoSumOn_map_pres
      (fun r => { r with saldoAcumulado := balOf data deps notas r.fecha })
      (fun r => rfl) (fun r => rfl)]

lemma datesOf_recalculate (data : List Registro) (deps : List Deposito)
    (notas : List NotaDebito) :
    datesOf (sortedOps (recalculate_accumulated_balances data deps notas)
        deps notas)
      = datesOf (sortedOps data deps notas) := by
  rw [sortedOps_recalculate data deps notas]
  unfold datesOf
  rw [List.map_map]
  rfl

lemma rangeDaily_congr {d1 d2 : Nat → ℚ} (h : ∀ x, d1 x = d2 x)
    (s : Finset Nat) (a b : Nat) :
    rangeDaily d1 s a b = rangeDaily d2 s a b := by
  unfold rangeDaily
  exact Finset.sum_congr rfl (fun x _ => h x)

lemma balOf_recalculate (data : List Registro) (deps : List Deposito)
    (notas : List NotaDebito) (f : Nat) :
    balOf (recalculate_accumulated_balances data deps notas) deps notas f
      = balOf data deps notas f := by
  unfold balOf
  rw [datesOf_recalculate data deps notas,
    rangeDaily_congr (dailyOf_recalculate data deps notas)
      (datesOf (sortedOps data deps notas)) 0 f]

set_option maxHeartbeats 1000000 in
/-- C3: the reconciliation is idempotent — rerunning it on its own output
(with the same deposits and notes) returns the identical record list. -/
theorem reconcile_idempotent (data : List Registro) (deps : List Deposito)
    (notas : List NotaDebito) :
    recalculate_accumulated_balances
        (recalculate_accumulated_balances data deps notas) deps notas
      = recalculate_accumulated_balances data deps notas := by
  have h1 := recalculate_closed
    (recalculate_accumulated_balances data deps notas) deps notas
  rw [anchorsOf_recalculate data deps notas,
    sortedOps_recalculate data deps notas] at h1
  have h2 : ((sortedOps data deps notas).map
      (fun r => { r with saldoAcumulado := balOf data deps notas r.fecha })).map
        (fun r => { r with saldoAcumulado := balOf (recalculate_accumulated_balances data deps notas) deps notas r.fecha })
      = (sortedOps data deps notas).map
          (fun r => { r with saldoAcumulado := balOf data deps notas r.fecha }) := by
    rw [List.map_map]
    apply List.map_congr_left
    intro s _
    show ({ { s with saldoAcumulado := balOf data deps notas s.fecha } with saldoAcumulado := balOf (recalculate_accumulated_balances data deps notas) deps notas s.fecha } : Registro) = { s with saldoAcumulado := balOf data deps notas s.fecha }
    rw [balOf_recalculate data deps notas s.fecha]
  rw [h2] at h1
  rw [h1, ← recalculate_closed data deps notas]

/-! ### Validation of record creation -/

/-- C8: creating a delivery record is rejected exactly when the entry weight
exceeds the exit weight, or any of quantity, weights, unit price or crate
count is negative, or quantity and both weights are simultaneously zero; and
a rejected creation leaves all three collections unchanged. -/
theorem add_supplier_record_spec (data : List Registro) (deps : List Deposito)
    (notas : List NotaDebito) (fecha : Nat) (proveedor : String)
    (cantidad pesoSalida pesoEntrada : ℚ) (tipoDocumento : String)
    (gavetas precioUnitario : ℚ) :
    (add_supplier_record data deps notas fecha proveedor cantidad pesoSalida
        pesoEntrada tipoDocumento gavetas precioUnitario = none
      ↔ pesoEntrada > pesoSalida ∨ cantidad < 0 ∨ pesoSalida < 0 ∨
        pesoEntrada < 0 ∨ precioUnitario < 0 ∨ gavetas < 0 ∨
        (cantidad = 0 ∧ pesoSalida = 0 ∧ pesoEntrada = 0)) ∧
    (add_supplier_record data deps notas fecha proveedor cantidad pesoSalida
        pesoEntrada tipoDocumento gavetas precioUnitario = none →
      addSupplierSession data deps notas fecha proveedor cantidad pesoSalida
        pesoEntrada tipoDocumento gavetas precioUnitario = (data, deps, notas)) := by
  constructor
  · unfold add_supplier_record
    by_cases h1 : 0 ≤ cantidad ∧ 0 ≤ pesoSalida ∧ 0 ≤ pesoEntrada ∧
        0 ≤ precioUnitario ∧ 0 ≤ gavetas
    · rw [if_neg (not_not_intro h1)]
      by_cases h2 : cantidad = 0 ∧ pesoSalida = 0 ∧ pesoEntrada = 0
      · rw [if_pos h2]
        exact iff_of_true rfl (by tauto)
      · rw [if_neg h2]
        by_cases h3 : pesoEntrada > pesoSalida
        · rw [if_pos h3]
          exact iff_of_true rfl (Or.inl h3)
        · rw [if_neg h3]
          refine iff_of_false (by simp) ?_
          intro hd
          rcases hd with h | h | h | h | h | h | h
          · exact h3 h
          · exact absurd h (not_lt.mpr h1.1)
          · exact absurd h (not_lt.mpr h1.2.1)
          · exact absurd h (not_lt.mpr h1.2.2.1)
          · exact absurd h (not_lt.mpr h1.2.2.2.1)
          · exact absurd h (not_lt.mpr h1.2.2.2.2)
          · exact h2 h
    · rw [if_pos h1]
      refine iff_of_true rfl ?_
      have hd : cantidad < 0 ∨ pesoSalida < 0 ∨ pesoEntrada < 0 ∨
          precioUnitario < 0 ∨ gavetas < 0 := by
        by_contra hc
        push_neg at hc
        exact h1 ⟨hc.1, hc.2.1, hc.2.2.1, hc.2.2.2.1, hc.2.2.2.2⟩
      tauto
  · intro hnone
    unfold addSupplierSession
    rw [hnone]

/-! ### Aggregate totals used by the conservation statements -/

/-- Sum of all deposit amounts. -/
def depositosTotal (deps : List Deposito) : ℚ :=
  (deps.map (fun d => d.monto)).sum

/-- Sum of the recomputed totals of all non-anchor delivery rows. -/
def totalsTotal (data : List Registro) : ℚ :=
  ((nonAnchor data).map rawTotal).sum

/-- Sum of all debit-note real discounts. -/
def notasTotal (notas : List NotaDebito) : ℚ :=
  (notas.map (fun nt => nt.descuentoReal)).sum

/-! ### Concrete inputs for the failing-input and witness theorems -/

/-- The ledger-anchor row, already in its reset state. -/
def wAnchor : Registro :=
  { n := 0, fecha := 0, proveedor := "BALANCE_INICIAL", producto := "",
    cantidad := 0, pesoSalida := 0, pesoEntrada := 0, tipoDocumento := "",
    gavetas := 0, precioUnitario := 0, promedio := 0, kilosRestantes := 0,
    librasRestantes := 0, total := 0, montoDeposito := 0, saldoDiario := 0,
    saldoAcumulado := INITIAL_ACCUMULATED_BALANCE }

/-- A delivery row dated day 1 for `LIRIS SA`, quantity 1, exit weight 1,
entry weight 0, unit price 0. -/
def wR1 : Registro :=
  { n := 1, fecha := 1, proveedor := "LIRIS SA", producto := "Pollo",
    cantidad := 1, pesoSalida := 1, pesoEntrada := 0, tipoDocumento := "Factura",
    gavetas := 0, precioUnitario := 0, promedio := 0, kilosRestantes := 0,
    librasRestantes := 0, total := 0, montoDeposito := 0, saldoDiario := 0,
    saldoAcumulado := 0 }

/-- A second delivery row on the same date for `Gallina 1`. -/
def wR2 : Registro := { wR1 with n := 2, proveedor := "Gallina 1" }

/-- A deposit of 50 for `LIRIS SA` on day 1. -/
def wDep : Deposito :=
  { fecha := 1, empresa := "LIRIS SA", agencia := "Banco Pichincha",
    monto := 50, documento := "Transferencia", n := 1 }

/-- `wR1` as the engine returns it: derived fields refreshed, the full
deposit sum attached, the whole date's consolidated net in `Saldo diario`,
and the balance advanced once per row of the date. -/
def wR1out : Registro :=
  { wR1 with promedio := LBS_PER_KG, kilosRestantes := 1,
             librasRestantes := LBS_PER_KG, total := 0, montoDeposito := 50,
             saldoDiario := 50,
             saldoAcumulado := INITIAL_ACCUMULATED_BALANCE + 100 }

/-- `wR2` as the engine returns it. -/
def wR2out : Registro :=
  { wR2 with promedio := LBS_PER_KG, kilosRestantes := 1,
             librasRestantes := LBS_PER_KG, total := 0, montoDeposito := 0,
             saldoDiario := 50,
             saldoAcumulado := INITIAL_ACCUMULATED_BALANCE + 100 }

/-- Evaluation of the engine on the two-rows-one-date input. -/
lemma wOut_eq :
    recalculate_accumulated_balances [wAnchor, wR1, wR2] [wDep] []
      = [wAnchor, wR1out, wR2out] := by
  norm_num +decide [recalculate_accumulated_balances, processOps, computeDerived,
    walkAux, isAnchor, resetAnchor, depositosSum, notasSum, saldoSumOn,
    adjustedDaily, wAnchor, wR1, wR2, wDep, wR1out, wR2out,
    List.insertionSort, List.orderedInsert, recKeyLe,
    LBS_PER_KG, INITIAL_ACCUMULATED_BALANCE]

/-! ### Failing-input theorems -/

/-- C1 (failing input): with two delivery rows on one date and a single
matched deposit of 50, the engine's final balance is the initial constant
plus 100 — the date's net of 50 applied once per row — although the date's
consolidated net and the global movement total are both 50, so the claimed
cumulative-sum balance would be the initial constant plus 50. -/
theorem balance_multiplied_per_row :
    (recalculate_accumulated_balances [wAnchor, wR1, wR2] [wDep] []).map
        (fun r => r.saldoAcumulado)
      = [INITIAL_ACCUMULATED_BALANCE, INITIAL_ACCUMULATED_BALANCE + 100,
         INITIAL_ACCUMULATED_BALANCE + 100] ∧
    adjNet [wAnchor, wR1, wR2] [wDep] [] 1 = 50 ∧
    depositosTotal [wDep] - totalsTotal [wAnchor, wR1, wR2] + notasTotal [] = 50 ∧
    (INITIAL_ACCUMULATED_BALANCE + 100 : ℚ) ≠ INITIAL_ACCUMULATED_BALANCE + 50 := by
  refine ⟨by rw [wOut_eq]; norm_num [wAnchor, wR1, wR2, wR1out, wR2out], ?_, ?_, ?_⟩
  · norm_num +decide [adjNet, nonAnchor, isAnchor, depositosSum, rawTotal,
      notasSum, wAnchor, wR1, wR2, wDep, LBS_PER_KG]
  · norm_num +decide [depositosTotal, totalsTotal, notasTotal, nonAnchor,
      isAnchor, rawTotal, wAnchor, wR1, wR2, wDep, LBS_PER_KG]
  · norm_num [INITIAL_ACCUMULATED_BALANCE]

/-- C2 (failing input): a deposit of 50 on a date with no delivery rows is
dropped entirely — the output consists of the anchor alone, no row of the
deposit's date appears, and the balance stays at the initial constant,
although the deposit sum of that date is 50. -/
theorem deposit_only_date_dropped :
    recalculate_accumulated_balances [wAnchor] [wDep] [] = [wAnchor] ∧
    (recalculate_accumulated_balances [wAnchor] [wDep] []).map (fun r => r.fecha)
      = [0] ∧
    depositosSum [wDep] 1 "LIRIS SA" = 50 := by
  have h : recalculate_accumulated_balances [wAnchor] [wDep] [] = [wAnchor] := by
    norm_num +decide [recalculate_accumulated_balances, processOps,
      computeDerived, walkAux, isAnchor, resetAnchor, depositosSum, notasSum,
      saldoSumOn, adjustedDaily, wAnchor, wDep, List.insertionSort,
      List.orderedInsert, recKeyLe, LBS_PER_KG, INITIAL_ACCUMULATED_BALANCE]
  refine ⟨h, by rw [h]; norm_num [wAnchor], ?_⟩
  norm_num +decide [depositosSum, wDep]

/-- C4 (failing input): on the deposit-without-deliveries input, the sum of
the engine's per-date nets over the output is 0 while
`Σ deposits - Σ totals + Σ real discounts` is 50 — conservation fails. -/
theorem conservation_fails :
    recalculate_accumulated_balances [wAnchor] [wDep] [] = [wAnchor] ∧
    ((nonAnchor (recalculate_accumulated_balances [wAnchor] [wDep] [])).map
      (fun r => r.saldoDiario)).sum = 0 ∧
    depositosTotal [wDep] - totalsTotal [wAnchor] + notasTotal [] = 50 ∧
    (0 : ℚ) ≠ 50 := by
  have h : recalculate_accumulated_balances [wAnchor] [wDep] [] = [wAnchor] := by
    norm_num +decide [recalculate_accumulated_balances, processOps,
      computeDerived, walkAux, isAnchor, resetAnchor, depositosSum, notasSum,
      saldoSumOn, adjustedDaily, wAnchor, wDep, List.insertionSort,
      List.orderedInsert, recKeyLe, LBS_PER_KG, INITIAL_ACCUMULATED_BALANCE]
  refine ⟨h, by rw [h]; norm_num +decide [nonAnchor, isAnchor, wAnchor], ?_, ?_⟩
  · norm_num +decide [depositosTotal, totalsTotal, notasTotal, nonAnchor,
      isAnchor, rawTotal, wAnchor, wDep]
  · norm_num

/-! ### Witness theorems -/

theorem same_day_equality_witness :
    wR1out.saldoAcumulado = wR2out.saldoAcumulado :=
  same_day_equality [wAnchor, wR1, wR2] [wDep] [] wR1out wR2out
    (by rw [wOut_eq]; simp) (by rw [wOut_eq]; simp)
    (by decide) (by decide) rfl

theorem anchor_invariance_witness :
    wAnchor.saldoAcumulado = INITIAL_ACCUMULATED_BALANCE ∧
    wAnchor.saldoDiario = 0 ∧ wAnchor.montoDeposito = 0 ∧ wAnchor.total = 0 :=
  anchor_invariance [wAnchor, wR1, wR2] [wDep] [] wAnchor
    (by rw [wOut_eq]; simp) (by decide)

theorem derived_fields_witness :
    wR1out.kilosRestantes = wR1out.pesoSalida - wR1out.pesoEntrada ∧
    wR1out.librasRestantes = wR1out.kilosRestantes * LBS_PER_KG ∧
    wR1out.promedio
      = (if wR1out.cantidad ≠ 0 then wR1out.librasRestantes / wR1out.cantidad
         else 0) ∧
    (wR1out.cantidad = 0 → wR1out.promedio = 0) ∧
    wR1out.total = wR1out.librasRestantes * wR1out.precioUnitario :=
  derived_fields [wAnchor, wR1, wR2] [wDep] [] wR1out
    (by rw [wOut_eq]; simp) (by decide)

theorem saldo_diario_whole_date_witness :
    wR1out.saldoDiario = adjNet [wAnchor, wR1, wR2] [wDep] [] wR1out.fecha ∧
    wR1out.saldoAcumulado = INITIAL_ACCUMULATED_BALANCE +
      Finset.sum ((datesOf (nonAnchor [wAnchor, wR1, wR2])).filter
          (fun d => 0 < d ∧ d ≤ wR1out.fecha))
        (fun d => (countOn (nonAnchor [wAnchor, wR1, wR2]) d : ℚ)
          * adjNet [wAnchor, wR1, wR2] [wDep] [] d) :=
  saldo_diario_whole_date [wAnchor, wR1, wR2] [wDep] [] wR1out
    (by rw [wOut_eq]; simp) (by decide)

theorem deposit_attached_per_row_witness :
    wR1out.montoDeposito = depositosSum [wDep] wR1out.fecha wR1out.proveedor ∧
    wR1out.saldoDiario
      = (((nonAnchor [wAnchor, wR1, wR2]).filter
            (fun s => s.fecha == wR1out.fecha)).map
          (fun s => depositosSum [wDep] wR1out.fecha s.proveedor - rawTotal s)).sum
        + notasSum [] wR1out.fecha :=
  deposit_attached_per_row [wAnchor, wR1, wR2] [wDep] [] wR1out
    (by rw [wOut_eq]; simp) (by decide)

theorem add_supplier_record_spec_witness :
    add_supplier_record [wAnchor] [] [] 1 "LIRIS SA" 1 1 5 "Factura" 0 1
      = none :=
  (add_supplier_record_spec [wAnchor] [] [] 1 "LIRIS SA" 1 1 5
    "Factura" 0 1).1.mpr (Or.inl (by norm_num))

end Raspadory
